import Mathlib

/-!
Verification of the `bets` module of wololobot (`src/modules/bets.js`).

The development shallowly embeds the module's data model and operations:
pure JS functions become Lean functions, the knex-backed tables become an
explicit `BetState` record threaded through the operations, ledger calls
(`bot.florins.*`) become explicit output values, and code that throws
becomes `Except String`.  JS numbers are modelled by `Int`; the payout
expression `Math.ceil(entry.amount / winningBets * total)` is modelled by
the exact integer ceiling of `amount * total / winningBets` (the formula
the computation denotes over the integers; the source evaluates it in
binary floating point, and when `winningBets = 0` the source produces
`NaN`/`Infinity`, which the model collapses to `0` — the theorems below
never depend on the numeric value produced in that degenerate case, only
on which transactions are emitted).
-/

/-! ## The option-string parser

The source (`bets.js`, lines 14-24):

    const parse = (str) => {
      const rx = /([a-z]+)\)(.*?)(?:\s[a-z]+\)|$)/g
      const options = {}
      let match
      while ((match = rx.exec(str))) {
        rx.lastIndex -= match[1].length + 2
        options[ match[1].toLowerCase() ] = match[2].trim()
      }
      return options
    }

The embedding reproduces the regex semantics for this particular pattern:
`[a-z]+` is greedy, so a key can only match a maximal run of lower-case
letters immediately followed by `)`; `(.*?)` is lazy and `.` excludes line
terminators; the trailing group tries `\s[a-z]+\)` before `$`, and `$`
(no `m` flag) only matches at the very end of the input.  `exec` on a
global regex searches forward from `lastIndex` (negative values are
clamped to 0 by ToLength) and returns null when no match remains.  The
loop mutates `lastIndex`, which can make the scan revisit positions; on
some inputs (e.g. `"a) b)"`) the loop never terminates, which the model
renders as fuel exhaustion (`none`).  A run that terminates never repeats
a stored `lastIndex` value (the state of an iteration is exactly the
stored `lastIndex`, so a repeat would repeat forever), and the stored
values all lie in `{-1, ..., length}`, so `length + 3` fuel is enough for
every terminating input.
-/

/-- `[a-z]` of the regex. -/
def isLowerAZ (c : Char) : Bool := 'a' ≤ c && c ≤ 'z'

/-- JS `\s` (WhiteSpace ∪ LineTerminator), also the set trimmed by
`String.prototype.trim`. -/
def isJsSpace (c : Char) : Bool :=
  let n := c.toNat
  n = 0x20 || n = 0x9 || n = 0xA || n = 0xB || n = 0xC || n = 0xD ||
  n = 0xA0 || n = 0x1680 || (0x2000 ≤ n && n ≤ 0x200A) ||
  n = 0x2028 || n = 0x2029 || n = 0x202F || n = 0x205F || n = 0x3000 ||
  n = 0xFEFF

/-- JS `.` without the `s` flag: any character except a line terminator. -/
def isDotChar (c : Char) : Bool :=
  let n := c.toNat
  !(n = 0xA || n = 0xD || n = 0x2028 || n = 0x2029)

/-- `String.prototype.toLowerCase` on the characters the module feeds it
(ASCII; the matched keys are `[a-z]+`, where it is the identity). -/
def jsToLowerChar (c : Char) : Char :=
  if 'A' ≤ c && c ≤ 'Z' then Char.ofNat (c.toNat + 32) else c

/-- `String.prototype.toLowerCase` on full strings (ASCII case mapping,
which is all the module's inputs exercise). -/
def jsToLower (s : String) : String := ⟨s.data.map jsToLowerChar⟩

/-- `String.prototype.trim`. -/
def jsTrim (l : List Char) : List Char :=
  ((l.dropWhile isJsSpace).reverse.dropWhile isJsSpace).reverse

/-- Length of the maximal run of `[a-z]` characters at the head. -/
def lowerRunLen : List Char → Nat
  | [] => 0
  | c :: cs => if isLowerAZ c then lowerRunLen cs + 1 else 0

/-- Match `[a-z]+\)` at the head (greedy `[a-z]+`, so only the maximal
run can be followed by `)`); returns the key length. -/
def keyLen? (l : List Char) : Option Nat :=
  let r := lowerRunLen l
  if r = 0 then none
  else match (l.drop r).head? with
    | some c => if c = ')' then some r else none
    | none => none

/-- Match the `\s[a-z]+\)` alternative at the head; returns the number of
characters consumed. -/
def tailLen? : List Char → Option Nat
  | [] => none
  | c :: cs =>
    if isJsSpace c then (keyLen? cs).map (fun m => m + 2) else none

/-- The lazy scan of `(.*?)(?:\s[a-z]+\)|$)`: starting at the head, at
each offset first try `\s[a-z]+\)`, then `$` (which only matches at the
end of the input), else consume one `.` character and move on.  Returns
`(description length, tail length)`, tail length `0` marking the `$`
case; `none` when a line terminator blocks the scan before any match. -/
def findTail : List Char → Option (Nat × Nat)
  | [] => some (0, 0)
  | c :: cs =>
    match tailLen? (c :: cs) with
    | some t => some (0, t)
    | none =>
      if isDotChar c then (findTail cs).map (fun p => (p.1 + 1, p.2))
      else none

/-- Attempt the whole pattern at the head: `(key length, description
length, tail length)`. -/
def matchAt (l : List Char) : Option (Nat × Nat × Nat) :=
  (keyLen? l).bind fun r =>
    (findTail (l.drop (r + 1))).map fun p => (r, p.1, p.2)

/-- `exec`'s forward search: the first offset at which the pattern
matches, with the match shape. -/
def searchFrom : List Char → Option (Nat × Nat × Nat × Nat)
  | [] => none
  | c :: cs =>
    match matchAt (c :: cs) with
    | some (r, d, t) => some (0, r, d, t)
    | none => (searchFrom cs).map (fun q => (q.1 + 1, q.2.1, q.2.2.1, q.2.2.2))

/-- `options[key] = value` on a JS object: insertion-ordered, an existing
key keeps its position and gets the new value. -/
def upsert (k v : String) : List (String × String) → List (String × String)
  | [] => [(k, v)]
  | (k1, v1) :: rest => if k1 = k then (k, v) :: rest else (k1, v1) :: upsert k v rest

/-- The `while ((match = rx.exec(str)))` loop.  `li` is the stored
`lastIndex` (an `Int`: the decrement can drive it to `-1`; `exec` clamps
it to `0`).  Fuel exhaustion (`none`) models non-termination. -/
def parseLoop (s : List Char) : Nat → Int → List (String × String) →
    Option (List (String × String))
  | 0, _, _ => none
  | fuel + 1, li, acc =>
    let start := li.toNat
    match searchFrom (s.drop start) with
    | none => some acc
    | some (p, r, d, t) =>
      let abs := start + p
      let key : String := ⟨((s.drop abs).take r).map jsToLowerChar⟩
      let desc : String := ⟨jsTrim ((s.drop (abs + r + 1)).take d)⟩
      let matchEnd := abs + r + 1 + d + t
      parseLoop s fuel ((matchEnd : Int) - ((r : Int) + 2)) (upsert key desc acc)

/-- `parse` (`bets.js` line 14).  `some m` means the loop returned the
object `m` (an insertion-ordered association list); `none` means the loop
does not terminate. -/
def parse (s : String) : Option (List (String × String)) :=
  let cs := s.toList
  parseLoop cs (cs.length + 3) 0 []

/-- A "key token followed by `)`" occurs somewhere in the input: some
position starts a (maximal) run of `[a-z]` letters immediately followed
by `)`. -/
def hasKeyToken : List Char → Bool
  | [] => false
  | c :: cs => (keyLen? (c :: cs)).isSome || hasKeyToken cs

/-- String form of `hasKeyToken`. -/
def containsKeyToken (s : String) : Bool := hasKeyToken s.toList

example : parse "a) Team Red b) Team Blue" =
    some [("a", "Team Red"), ("b", "Team Blue")] := by decide

example : parse "a) x bbb) y" = some [("a", "x"), ("bb", "y"), ("b", "y")] := by
  decide

example : parse "no key tokens here!" = some [] := by decide

example : parse "a) b)" = none := by decide

deriving instance DecidableEq for Except

/-! ## The bet manager data model

One `BetState` models the rows of the three tables owned by a single bet
identifier (every query of the module filters on `betId`, so the other
bets' rows are irrelevant): the `bets` row's `status` column (a string:
`'open'`, `'closed'` or `'ended'`), the `betOptions` rows and the
`betEntries` rows, both in insertion order (knex `.first()` on a plain
filter returns the first row in that order).  `nextEntryId` models the
auto-increment id returned by `insert`. -/

/-- A `betOptions` row: `{ id, name, description }`. -/
structure BetOption where
  id : Nat
  name : String
  description : String
deriving DecidableEq, Repr

/-- A `betEntries` row: `{ id, user, optionId, amount }`. -/
structure BetEntry where
  id : Nat
  user : String
  optionId : Nat
  amount : Int
deriving DecidableEq, Repr

/-- The persistent state owned by one bet. -/
structure BetState where
  status : String
  options : List BetOption
  entries : List BetEntry
  nextEntryId : Nat
deriving DecidableEq, Repr

/-- An element of a `bot.florins.transactions` batch:
`{ username, amount, description }`; `amount` is negative for a debit and
positive for a credit. -/
structure Transaction where
  username : String
  amount : Int
  description : String
deriving DecidableEq, Repr

/-- A call into the ledger service (`bot.florins`). -/
inductive LedgerOp where
  | unreserve (user tag : String)
  | reserve (user tag : String) (amount : Int)
deriving DecidableEq, Repr

/-! ## The bet manager operations -/

/-- `getBetOption(name)` (`bets.js` line 98): the first `betOptions` row
of this bet whose `name` equals the lower-cased argument.  (Via the only
creation path — `parse` — stored names are themselves lower-case, so this
realizes the case-insensitive key match.) -/
def getBetOption (st : BetState) (name : String) : Option BetOption :=
  st.options.find? (fun o => o.name == jsToLower name)

/-- `valid(option)` (line 54). -/
def valid (st : BetState) (option : String) : Bool :=
  (getBetOption st option).isSome

/-- `getStatus()` (line 63). -/
def getStatus (st : BetState) : String := st.status

/-- `close()` (line 74): unconditionally updates the status to
`'closed'` — the source checks no precondition. -/
def close (st : BetState) : BetState := { st with status := "closed" }

/-- `closed()` (line 87). -/
def closed (st : BetState) : Bool := getStatus st == "closed"

/-- `pool()` (line 147): SQL `SUM` of all entries' amounts.  (On an empty
table SQL yields `NULL`; the model returns `0`.  The only consumer whose
behaviour could differ, `end`, never applies the value when there are no
entries, because the winner list is empty too.) -/
def pool (st : BetState) : Int := (st.entries.map BetEntry.amount).sum

/-- `enter(user, optionName, florins)` (lines 108-140).  Checks, in
source order: status is `'open'` (else throws `InvalidState`), the option
exists (else `UnknownOption`), the amount is non-negative (else
`InvalidAmount`).  On success it calls `unreserve` then `reserve` on the
ledger (returned as the `LedgerOp` list), deletes the user's old entries
and inserts the new one, returning the inserted row.  A thrown error
(`Except.error`) carries no new state and no ledger calls: nothing was
reserved, released or written. -/
def enter (st : BetState) (user optionName : String) (florins : Int) :
    Except String (List LedgerOp × BetState × BetEntry) :=
  if getStatus st ≠ "open" then
    .error ("The current bet has been " ++ getStatus st ++ ".")
  else
    match getBetOption st optionName with
    | none => .error ("Betting option \"" ++ optionName ++ "\" does not exist.")
    | some option =>
      if florins < 0 then
        .error "You can't place a negative bet."
      else
        let ops := [LedgerOp.unreserve user "bet", LedgerOp.reserve user "bet" florins]
        let remaining := st.entries.filter (fun e => !(e.user == jsToLower user))
        let newEntry : BetEntry :=
          { id := st.nextEntryId, user := jsToLower user,
            optionId := option.id, amount := florins }
        .ok (ops,
             { st with entries := remaining ++ [newEntry],
                       nextEntryId := st.nextEntryId + 1 },
             newEntry)

/-- `clear(user)` (lines 209-218): requires status `'open'`, then deletes
the user's entries. -/
def clear (st : BetState) (user : String) : Except String BetState :=
  if getStatus st ≠ "open" then
    .error "No bets are open right now."
  else
    .ok { st with entries := st.entries.filter (fun e => !(e.user == jsToLower user)) }

/-- The `betOptions.name` column produced by the left join in
`getBetEntries` (line 40): the joined option's name, or SQL `NULL`
(stringified to `"null"` by the template literal in the debit
description) when no option row matches. -/
def optionNameById (st : BetState) (oid : Nat) : String :=
  match st.options.find? (fun o => o.id == oid) with
  | some o => o.name
  | none => "null"

/-- `winners.map((entry) => entry.amount).reduce(sum, 0)` (line 174). -/
def winningTotalOf (l : List BetEntry) : Int :=
  (l.map BetEntry.amount).foldl (· + ·) 0

/-- The exact integer ceiling `⌈x / y⌉` for `y > 0`, used to model
`Math.ceil(entry.amount / winningBets * total)` as
`ceilDivInt (amount * total) winningBets`.  For `y = 0` the source's
floating-point expression yields `NaN` (or `±Infinity`); the model
returns `0` — no theorem below depends on the value in that case. -/
def ceilDivInt (x y : Int) : Int :=
  if y = 0 then 0 else (x + y - 1) / y

/-- `end(optionName)` (lines 159-204).  Throws when the option does not
exist; otherwise records status `'ended'`, reads all entries, computes
the winners (entries on the winning option), their total and the pool,
builds the payout list, and issues two transaction batches — debits of
every entry's stake, then credits of every winner's payout — before
clearing the `'bet'` reservations.  Returns
`(new state, debit batch, credit batch, winners)`. -/
def endBet (st : BetState) (optionName : String) :
    Except String (BetState × List Transaction × List Transaction × List BetEntry) :=
  match getBetOption st optionName with
  | none => .error ("Betting option \"" ++ optionName ++ " does not exist.\"")
  | some winningOption =>
    let st1 := { st with status := "ended" }
    let allEntries := st.entries
    let winners := st.entries.filter (fun e => e.optionId == winningOption.id)
    let winningBets := winningTotalOf winners
    let total := pool st
    let payouts := winners.map (fun e =>
      (e.user, ceilDivInt (e.amount * total) winningBets))
    let debits := allEntries.map (fun e =>
      { username := e.user, amount := -e.amount,
        description := "bet on option " ++ optionNameById st e.optionId : Transaction })
    let credits := payouts.map (fun p =>
      { username := p.1, amount := p.2,
        description := "bet payout from option " ++ winningOption.name : Transaction })
    .ok (st1, debits, credits, winners)

/-- `optionValue(optionName)` (lines 229-239).  When the option does not
exist the source dereferences `undefined` (`option.id`) and throws a
`TypeError`; otherwise SQL `SUM` over the option's entries with
`result.total || 0` (so `NULL` on no rows becomes `0`). -/
def optionValue (st : BetState) (optionName : String) : Except String Int :=
  match getBetOption st optionName with
  | none => .error "TypeError: Cannot read properties of undefined (reading 'id')"
  | some option =>
    .ok (((st.entries.filter (fun e => e.optionId == option.id)).map
          BetEntry.amount).sum)

/-- `entryValue(user)` (lines 241-248).  `.first()` on the user's entries
yields `undefined` when the user has no entry, and the source then
dereferences `value.amount`, throwing a `TypeError`; with a row present
it returns `value.amount || 0`. -/
def entryValue (st : BetState) (user : String) : Except String Int :=
  match st.entries.find? (fun e => e.user == jsToLower user) with
  | none => .error "TypeError: Cannot read properties of undefined (reading 'amount')"
  | some e => .ok e.amount

/-- The `betOptions` rows inserted by `createBet` (line 274): one row per
key of the options object, in insertion order; `i` models the
auto-increment id. -/
def optionRows : Nat → List (String × String) → List BetOption
  | _, [] => []
  | i, (k, v) :: rest => ⟨i, k, v⟩ :: optionRows (i + 1) rest

/-- `createBet(bot, options)` (lines 269-282): inserts a `bets` row with
status `'open'` and one `betOptions` row per key of the options object
(in insertion order, with generated ids); there is no emptiness check —
`options` may be empty, in which case `insert([])` inserts nothing. -/
def createBet (options : List (String × String)) : BetState :=
  { status := "open",
    options := optionRows 1 options,
    entries := [],
    nextEntryId := 1 }

/-- The `!bet open` command handler (lines 301-324), up to the chat
output: requires the florins module (else throws — the spec's
`ConfigError`), requires no bet to be running, then parses the trailing
text and creates the bet.  The outer `none` marks the (unreachable in
practice) case that `parse` does not terminate. -/
def betOpenCommand (florinsAvailable : Bool) (hasCurrentBet : Bool)
    (trailing : String) : Option (Except String BetState) :=
  if !florinsAvailable then
    some (.error "Bets require the florins module, but it doesn't appear to be available.")
  else if hasCurrentBet then
    some (.error "Another bet is already open.")
  else
    (parse trailing).map (fun options => .ok (createBet options))

/-! ## Derived quantities used by the claims -/

/-- Total stake debited by a debit batch (each debit transaction carries
`amount = -stake`). -/
def debitedTotal (txs : List Transaction) : Int :=
  (txs.map (fun t => -t.amount)).sum

/-- Total amount credited by a credit batch. -/
def creditTotal (txs : List Transaction) : Int :=
  (txs.map Transaction.amount).sum

example :
    enter { status := "open",
            options := [{ id := 1, name := "a", description := "Cats" }],
            entries := [], nextEntryId := 1 } "Alice" "A" 100 =
    .ok ([LedgerOp.unreserve "Alice" "bet", LedgerOp.reserve "Alice" "bet" 100],
         { status := "open",
           options := [{ id := 1, name := "a", description := "Cats" }],
           entries := [{ id := 1, user := "alice", optionId := 1, amount := 100 }],
           nextEntryId := 2 },
         { id := 1, user := "alice", optionId := 1, amount := 100 }) := rfl

/-! ## Concrete states used by the claims -/

/-- The §8 scenario after `close`: options `a) Cats b) Dogs`, entries
alice→a:100, bob→b:200, carol→a:50. -/
def scenarioState : BetState :=
  { status := "closed",
    options := [⟨1, "a", "Cats"⟩, ⟨2, "b", "Dogs"⟩],
    entries := [⟨1, "alice", 1, 100⟩, ⟨2, "bob", 2, 200⟩, ⟨3, "carol", 1, 50⟩],
    nextEntryId := 4 }

/-- `scenarioState` after `end("a")`. -/
def scenarioEnded : BetState := { scenarioState with status := "ended" }

/-- The debit batch `end("a")` issues on `scenarioState`. -/
def scenarioDebits : List Transaction :=
  [⟨"alice", -100, "bet on option a"⟩,
   ⟨"bob", -200, "bet on option b"⟩,
   ⟨"carol", -50, "bet on option a"⟩]

/-- The credit batch `end("a")` issues on `scenarioState`. -/
def scenarioCredits : List Transaction :=
  [⟨"alice", 234, "bet payout from option a"⟩,
   ⟨"carol", 117, "bet payout from option a"⟩]

/-- The winner rows `end("a")` returns on `scenarioState`. -/
def scenarioWinners : List BetEntry :=
  [⟨1, "alice", 1, 100⟩, ⟨3, "carol", 1, 50⟩]

/-- The same bet while still open and empty. -/
def openState : BetState :=
  { status := "open",
    options := [⟨1, "a", "Cats"⟩, ⟨2, "b", "Dogs"⟩],
    entries := [],
    nextEntryId := 1 }

/-- A closed bet holding a zero-amount entry on option `a` and a
5-florin entry on option `b`: the winning total of `a` is `0` although an
entry lies on it. -/
def zeroWinnerState : BetState :=
  { status := "closed",
    options := [⟨1, "a", "Cats"⟩, ⟨2, "b", "Dogs"⟩],
    entries := [⟨1, "alice", 1, 0⟩, ⟨2, "bob", 2, 5⟩],
    nextEntryId := 3 }

/-- A closed bet whose option `a` has no entries at all. -/
def noAEntriesState : BetState :=
  { status := "closed",
    options := [⟨1, "a", "Cats"⟩, ⟨2, "b", "Dogs"⟩],
    entries := [⟨1, "bob", 2, 200⟩],
    nextEntryId := 2 }

/-- A bet that has already been ended. -/
def endedState : BetState :=
  { status := "ended",
    options := [⟨1, "a", "Cats"⟩, ⟨2, "b", "Dogs"⟩],
    entries := [⟨1, "alice", 1, 100⟩, ⟨2, "bob", 2, 200⟩],
    nextEntryId := 3 }

/-- `openState` after `enter("alice", "a", 100)`. -/
def afterFirstEnter : BetState :=
  { status := "open",
    options := [⟨1, "a", "Cats"⟩, ⟨2, "b", "Dogs"⟩],
    entries := [⟨1, "alice", 1, 100⟩],
    nextEntryId := 2 }

/-! ## Helper lemmas -/

theorem foldl_add_eq_sum (l : List Int) : ∀ i : Int, l.foldl (· + ·) i = i + l.sum := by
  induction l with
  | nil => intro i; simp
  | cons a l ih => intro i; simp [List.foldl_cons, List.sum_cons, ih, add_assoc]

theorem winningTotalOf_eq_sum (l : List BetEntry) :
    winningTotalOf l = (l.map BetEntry.amount).sum := by
  simp [winningTotalOf, foldl_add_eq_sum]

theorem ceilDivInt_bounds (x y : Int) (hy : 0 < y) :
    x ≤ y * ceilDivInt x y ∧ y * ceilDivInt x y ≤ x + y - 1 := by
  unfold ceilDivInt
  rw [if_neg (by omega : ¬ y = 0)]
  have h1 := Int.ediv_add_emod (x + y - 1) y
  have h2 := Int.emod_nonneg (x + y - 1) (by omega : y ≠ 0)
  have h3 := Int.emod_lt_of_pos (x + y - 1) hy
  constructor <;> linarith [h1, h2, h3]

theorem sum_ceil_lower (W P : Int) (hW : 0 < W) :
    ∀ l : List Int, l.sum * P ≤ W * (l.map (fun a => ceilDivInt (a * P) W)).sum
  | [] => by simp
  | a :: l => by
    have hb := (ceilDivInt_bounds (a * P) W hW).1
    have ih := sum_ceil_lower W P hW l
    simp only [List.sum_cons, List.map_cons, add_mul, mul_add]
    linarith

theorem sum_ceil_upper (W P : Int) (hW : 0 < W) :
    ∀ l : List Int,
      W * (l.map (fun a => ceilDivInt (a * P) W)).sum ≤
        l.sum * P + l.length * (W - 1)
  | [] => by simp
  | a :: l => by
    have hb := (ceilDivInt_bounds (a * P) W hW).2
    have ih := sum_ceil_upper W P hW l
    simp only [List.sum_cons, List.map_cons, List.length_cons]
    push_cast
    linarith [hb, ih]

theorem creditSum_bounds (winners : List BetEntry) (P : Int)
    (hW : 0 < winningTotalOf winners) :
    P ≤ (winners.map (fun e => ceilDivInt (e.amount * P) (winningTotalOf winners))).sum ∧
    (winners.map (fun e => ceilDivInt (e.amount * P) (winningTotalOf winners))).sum <
      P + winners.length := by
  have hsum : (winners.map BetEntry.amount).sum = winningTotalOf winners :=
    (winningTotalOf_eq_sum winners).symm
  have hmap : winners.map (fun e => ceilDivInt (e.amount * P) (winningTotalOf winners)) =
      (winners.map BetEntry.amount).map (fun a => ceilDivInt (a * P) (winningTotalOf winners)) := by
    rw [List.map_map]; rfl
  have hlow := sum_ceil_lower (winningTotalOf winners) P hW (winners.map BetEntry.amount)
  have hup := sum_ceil_upper (winningTotalOf winners) P hW (winners.map BetEntry.amount)
  rw [hsum] at hlow hup
  rw [List.length_map] at hup
  have hlen : 1 ≤ winners.length := by
    cases winners with
    | nil => simp [winningTotalOf] at hW
    | cons a l => simp [List.length_cons]
  rw [hmap]
  constructor
  · exact le_of_mul_le_mul_left hlow hW
  · have key : winningTotalOf winners * P + (winners.length : Int) * (winningTotalOf winners - 1) <
        winningTotalOf winners * (P + winners.length) := by
      have h1 : (1 : Int) ≤ (winners.length : Int) := by exact_mod_cast hlen
      nlinarith [h1]
    exact lt_of_mul_lt_mul_left (lt_of_le_of_lt hup key) (le_of_lt hW)

/-- Unfolding a successful `endBet` call into its components. -/
theorem endBet_ok_components (st : BetState) (key : String)
    (res : BetState × List Transaction × List Transaction × List BetEntry)
    (h : endBet st key = .ok res) :
    ∃ w, getBetOption st key = some w ∧
      res = ({ st with status := "ended" },
             st.entries.map (fun e =>
               ⟨e.user, -e.amount, "bet on option " ++ optionNameById st e.optionId⟩),
             ((st.entries.filter (fun e => e.optionId == w.id)).map (fun e =>
                (e.user,
                 ceilDivInt (e.amount * pool st)
                   (winningTotalOf (st.entries.filter (fun x => x.optionId == w.id)))))).map
               (fun p => ⟨p.1, p.2, "bet payout from option " ++ w.name⟩),
             st.entries.filter (fun e => e.optionId == w.id)) := by
  unfold endBet at h
  cases hopt : getBetOption st key with
  | none => rw [hopt] at h; simp at h
  | some w =>
    rw [hopt] at h
    simp only [Except.ok.injEq] at h
    exact ⟨w, rfl, h.symm⟩

/-- Entries of a user survive no `delete`-then-`filter` round trip: after
removing a user's rows, filtering for that user gives nothing. -/
theorem filter_user_of_removed (l : List BetEntry) (u : String) :
    (l.filter (fun e => !(e.user == u))).filter (fun e => e.user == u) = [] := by
  induction l with
  | nil => rfl
  | cons a l ih =>
    cases h : a.user == u with
    | true => simp [List.filter_cons, h, ih]
    | false => simp [List.filter_cons, h, ih]

/-! ## Claims -/

/-- C1 (amended): for every bet and entry set at the moment
`end(winningOptionKey)` begins, the total stake debited by the debit
batch equals `pool()` at that moment (the batch carries one transaction
of amount `-entry.amount` per entry), and whenever the winning total —
the sum of the amounts of the entries on the winning option — is
positive, the credited payouts sum to at least `pool` and to strictly
less than `pool` plus the number of winning entries.  (The claim as
frozen asks this whenever at least one entry lies on the winning option;
a zero-amount entry on the winning option makes the winning total `0`
and the payout expression degenerate — see the counterexample — so the
bound holds under the positive-winning-total hypothesis instead.) -/
theorem C1_end_money_conservation (st : BetState) (key : String)
    (st2 : BetState) (debits credits : List Transaction) (winners : List BetEntry)
    (h : endBet st key = .ok (st2, debits, credits, winners)) :
    debitedTotal debits = pool st ∧
    (0 < winningTotalOf winners →
      pool st ≤ creditTotal credits ∧
      creditTotal credits < pool st + winners.length) := by
  obtain ⟨w, hopt, hres⟩ := endBet_ok_components st key _ h
  simp only [Prod.mk.injEq] at hres
  obtain ⟨h1, h2, h3, h4⟩ := hres
  subst h2 h3 h4
  constructor
  · simp [debitedTotal, pool, List.map_map, Function.comp_def, neg_neg]
  · intro hW
    have hb := creditSum_bounds (st.entries.filter (fun e => e.optionId == w.id))
      (pool st) hW
    have heq : creditTotal
        (((st.entries.filter (fun e => e.optionId == w.id)).map (fun e =>
          (e.user,
           ceilDivInt (e.amount * pool st)
             (winningTotalOf (st.entries.filter (fun x => x.optionId == w.id)))))).map
          (fun p => ⟨p.1, p.2, "bet payout from option " ++ w.name⟩)) =
        ((st.entries.filter (fun e => e.optionId == w.id)).map (fun e =>
          ceilDivInt (e.amount * pool st)
            (winningTotalOf (st.entries.filter (fun e => e.optionId == w.id))))).sum := by
      simp [creditTotal, List.map_map, Function.comp_def]
    rw [heq]
    exact hb

/-- Witness for C1 at the spec's §8 scenario: `end("a")` on entries
alice→a:100, bob→b:200, carol→a:50 debits 350 = pool and credits a total
within `[350, 350 + 2)`. -/
theorem C1_end_money_conservation_witness :
    debitedTotal scenarioDebits = pool scenarioState ∧
    (pool scenarioState ≤ creditTotal scenarioCredits ∧
     creditTotal scenarioCredits < pool scenarioState + scenarioWinners.length) := by
  have h := C1_end_money_conservation scenarioState "a" scenarioEnded scenarioDebits
    scenarioCredits scenarioWinners (by decide)
  exact ⟨h.1, h.2 (by decide)⟩

/-- Counterexample to C1 as frozen: on a bet with a zero-amount entry on
the winning option (alice→a:0) and bob→b:5, at least one entry lies on
the winning option, yet the credit total (the source computes
`Math.ceil(0/0*5) = NaN`; the model renders the degenerate payout as 0)
is not `≥ pool = 5`. -/
theorem C1_zero_winning_total_counterexample :
    endBet zeroWinnerState "a" =
      .ok ({ zeroWinnerState with status := "ended" },
           [⟨"alice", 0, "bet on option a"⟩, ⟨"bob", -5, "bet on option b"⟩],
           [⟨"alice", 0, "bet payout from option a"⟩],
           [⟨1, "alice", 1, 0⟩]) ∧
    pool zeroWinnerState = 5 ∧
    ¬ (pool zeroWinnerState ≤
        creditTotal [⟨"alice", 0, "bet payout from option a"⟩]) := by
  refine ⟨by decide, by decide, by decide⟩

/-- C2: for every bet ended with `end(winningOptionKey)`, the winners are
exactly the stored entries on the winning option and each is credited
exactly `ceil(entry.amount / winningTotal * pool)` — modelled as the
exact integer ceiling `ceilDivInt (amount * pool) winningTotal` — where
`pool` is the sum of all entries' amounts and `winningTotal` the sum of
the winning entries' amounts. -/
theorem C2_payout_formula (st : BetState) (key : String)
    (st2 : BetState) (debits credits : List Transaction) (winners : List BetEntry)
    (h : endBet st key = .ok (st2, debits, credits, winners)) :
    ∃ w, getBetOption st key = some w ∧
      winners = st.entries.filter (fun e => e.optionId == w.id) ∧
      credits = winners.map (fun e =>
        ⟨e.user,
         ceilDivInt (e.amount * pool st) (winningTotalOf winners),
         "bet payout from option " ++ w.name⟩) := by
  obtain ⟨w, hopt, hres⟩ := endBet_ok_components st key _ h
  simp only [Prod.mk.injEq] at hres
  obtain ⟨h1, h2, h3, h4⟩ := hres
  refine ⟨w, hopt, h4, ?_⟩
  subst h4
  rw [h3, List.map_map]
  rfl

/-- Witness for C2 at the spec's §8 scenario: winners are alice and
carol, payouts are 234 = ceil(100/150*350) and 117 = ceil(50/150*350),
debits total 350 and credits total 351. -/
theorem C2_payout_formula_witness :
    scenarioWinners.map BetEntry.user = ["alice", "carol"] ∧
    scenarioCredits.map Transaction.amount = [234, 117] ∧
    debitedTotal scenarioDebits = 350 ∧
    creditTotal scenarioCredits = 351 ∧
    scenarioCredits = scenarioWinners.map (fun e =>
      ⟨e.user,
       ceilDivInt (e.amount * pool scenarioState) (winningTotalOf scenarioWinners),
       "bet payout from option a"⟩) := by
  obtain ⟨w, hopt, hwin, hcred⟩ := C2_payout_formula scenarioState "a" scenarioEnded
    scenarioDebits scenarioCredits scenarioWinners (by decide)
  have hw : w = ⟨1, "a", "Cats"⟩ := Option.some.inj (hopt.symm.trans (by decide))
  subst hw
  exact ⟨by decide, by decide, by decide, by decide, hcred⟩

/-- C3: `enter(user, optionKey, amount)` fails with the `InvalidState`
message whenever the status is not `open`; fails with the
`UnknownOption` message whenever (status being open) the option lookup —
stored name equal to the lower-cased key, the case-insensitive match
given that stored names are lower-case — finds nothing; fails with the
`InvalidAmount` message whenever (the first two checks passing)
`amount < 0`; and every successful call implies all three validations
passed.  An error return carries no ledger operations and no state: in
each failure case no reservation is made or released and the stored
entries are unchanged. -/
theorem C3_enter_validation (st : BetState) (user key : String) (amount : Int) :
    (st.status ≠ "open" →
      enter st user key amount =
        .error ("The current bet has been " ++ st.status ++ ".")) ∧
    (st.status = "open" → getBetOption st key = none →
      enter st user key amount =
        .error ("Betting option \"" ++ key ++ "\" does not exist.")) ∧
    (st.status = "open" → (getBetOption st key).isSome → amount < 0 →
      enter st user key amount = .error "You can't place a negative bet.") ∧
    (∀ r, enter st user key amount = .ok r →
      st.status = "open" ∧ (getBetOption st key).isSome ∧ 0 ≤ amount) := by
  refine ⟨?_, ?_, ?_, ?_⟩
  · intro hst
    simp [enter, getStatus, hst]
  · intro hst hopt
    simp [enter, getStatus, hst, hopt]
  · intro hst hopt hneg
    obtain ⟨w, hw⟩ := Option.isSome_iff_exists.mp hopt
    simp [enter, getStatus, hst, hw, hneg]
  · intro r hok
    unfold enter getStatus at hok
    by_cases hst : st.status = "open"
    · rw [if_neg (not_not_intro hst)] at hok
      cases hopt : getBetOption st key with
      | none => rw [hopt] at hok; simp at hok
      | some w =>
        simp only [hopt] at hok
        by_cases hneg : amount < 0
        · rw [if_pos hneg] at hok; simp at hok
        · exact ⟨hst, by simp [hopt], by omega⟩
    · rw [if_pos hst] at hok; simp at hok

/-- Witness for C3: a closed bet rejects an entry as `InvalidState`, an
unknown key as `UnknownOption`, a negative amount as `InvalidAmount`. -/
theorem C3_enter_validation_witness :
    enter scenarioState "dave" "a" 10 =
      .error "The current bet has been closed." ∧
    enter openState "dave" "zz" 10 =
      .error "Betting option \"zz\" does not exist." ∧
    enter openState "dave" "a" (-5) =
      .error "You can't place a negative bet." := by
  refine ⟨(C3_enter_validation scenarioState "dave" "a" 10).1 (by decide),
          (C3_enter_validation openState "dave" "zz" 10).2.1 rfl (by decide),
          (C3_enter_validation openState "dave" "a" (-5)).2.2.1 rfl (by decide)
            (by decide)⟩

/-- C4: after any successful `enter(user, optionKey, amount)` — whatever
entries the user had before, including one from an earlier call — the
stored entries contain exactly one row for that user (looked up by the
lower-cased name), and it is the returned row, carrying the amount and
the option of this latest call. -/
theorem C4_enter_single_entry (st : BetState) (user key : String) (amount : Int)
    (ops : List LedgerOp) (st2 : BetState) (e : BetEntry)
    (h : enter st user key amount = .ok (ops, st2, e)) :
    st2.entries.filter (fun x => x.user == jsToLower user) = [e] ∧
    e.user = jsToLower user ∧
    e.amount = amount ∧
    (∃ w, getBetOption st key = some w ∧ e.optionId = w.id) := by
  unfold enter getStatus at h
  by_cases hst : st.status = "open"
  · rw [if_neg (not_not_intro hst)] at h
    cases hopt : getBetOption st key with
    | none => rw [hopt] at h; simp at h
    | some w =>
      simp only [hopt] at h
      by_cases hneg : amount < 0
      · rw [if_pos hneg] at h; simp at h
      · rw [if_neg hneg] at h
        simp only [Except.ok.injEq, Prod.mk.injEq] at h
        obtain ⟨hops, hst2, he⟩ := h
        subst hst2 he
        refine ⟨?_, rfl, rfl, w, rfl, rfl⟩
        rw [List.filter_append, filter_user_of_removed]
        simp [List.filter]
  · rw [if_pos hst] at h; simp at h

/-- Witness for C4: a second call by the same user (differing only in the
case of the name) replaces the earlier 100-florin entry on option `a`
with a single 30-florin entry on option `b`. -/
theorem C4_enter_single_entry_witness :
    enter openState "alice" "a" 100 =
      .ok ([LedgerOp.unreserve "alice" "bet", LedgerOp.reserve "alice" "bet" 100],
           afterFirstEnter, ⟨1, "alice", 1, 100⟩) ∧
    ({ status := "open", options := [⟨1, "a", "Cats"⟩, ⟨2, "b", "Dogs"⟩],
       entries := [⟨2, "alice", 2, 30⟩], nextEntryId := 3 } : BetState).entries.filter
      (fun x => x.user == jsToLower "Alice") = [⟨2, "alice", 2, 30⟩] ∧
    (⟨2, "alice", 2, 30⟩ : BetEntry).amount = 30 := by
  have h := C4_enter_single_entry afterFirstEnter "Alice" "b" 30
    [LedgerOp.unreserve "Alice" "bet", LedgerOp.reserve "Alice" "bet" 30]
    { status := "open", options := [⟨1, "a", "Cats"⟩, ⟨2, "b", "Dogs"⟩],
      entries := [⟨2, "alice", 2, 30⟩], nextEntryId := 3 }
    ⟨2, "alice", 2, 30⟩ (by decide)
  exact ⟨by decide, h.1, h.2.2.1⟩

/-- C5 (amended): `close()` sets the status to `closed` from any state —
it checks no precondition, so it realizes open → closed but also moves an
**ended** bet back to closed (see the counterexample); `ended` is
terminal for the remaining manager operations: with status `ended`,
`enter` and `clear` never succeed, and `end` leaves the status `ended`. -/
theorem C5_status_machine (st : BetState) (user key : String) (amount : Int) :
    (close st).status = "closed" ∧
    (getStatus st = "ended" →
      (∀ r, enter st user key amount ≠ .ok r) ∧
      (∀ r, clear st user ≠ .ok r) ∧
      (∀ res, endBet st key = .ok res → res.1.status = "ended")) := by
  refine ⟨rfl, fun hst => ⟨?_, ?_, ?_⟩⟩
  · intro r hok
    unfold enter getStatus at hok
    rw [show st.status = "ended" from hst] at hok
    simp at hok
  · intro r hok
    unfold clear getStatus at hok
    rw [show st.status = "ended" from hst] at hok
    simp at hok
  · intro res hres
    obtain ⟨w, hopt, hcomp⟩ := endBet_ok_components st key res hres
    rw [hcomp]

/-- Witness for C5 at a concrete ended bet: `close` relabels it closed,
`enter` and `clear` reject, `end` re-runs and leaves it ended. -/
theorem C5_status_machine_witness :
    (close endedState).status = "closed" ∧
    enter endedState "dave" "a" 10 ≠
      .ok ([LedgerOp.unreserve "dave" "bet", LedgerOp.reserve "dave" "bet" 10],
           endedState, ⟨3, "dave", 1, 10⟩) ∧
    clear endedState "dave" ≠ .ok endedState ∧
    ({ endedState with status := "ended" } : BetState).status = "ended" := by
  have h := C5_status_machine endedState "dave" "a" 10
  have h2 := h.2 rfl
  refine ⟨h.1, h2.1 _, h2.2.1 _, ?_⟩
  exact h2.2.2 ({ endedState with status := "ended" },
    [⟨"alice", -100, "bet on option a"⟩, ⟨"bob", -200, "bet on option b"⟩],
    [⟨"alice", 300, "bet payout from option a"⟩],
    [⟨1, "alice", 1, 100⟩]) (by decide)

/-- Counterexample to C5 as frozen: `close()` invoked on an ended bet
changes its status to `closed` — so `ended` is not terminal under the
manager operation `close`. -/
theorem C5_close_unends_counterexample :
    getStatus endedState = "ended" ∧
    getStatus (close endedState) = "closed" ∧
    getStatus (close endedState) ≠ "ended" :=
  ⟨rfl, rfl, by decide⟩

/-- C6 (code bug): `optionValue(optionKey)` does return `0` when the
option exists but has no entry rows; but `entryValue(user)` with no
matching row dereferences the `undefined` result of `.first()`
(`value.amount`) and throws a `TypeError` instead of returning 0 — the
`|| 0` fallback the source applies to `value.amount` shows the intended
default. -/
theorem C6_entryValue_crashes :
    optionValue noAEntriesState "a" = .ok 0 ∧
    entryValue noAEntriesState "alice" =
      .error "TypeError: Cannot read properties of undefined (reading 'amount')" :=
  ⟨rfl, rfl⟩

/-- C7 (amended): every successful `end` issues the debit batch over all
stored entries; the credit batch carries exactly one transaction per
winning entry — so when the winning option has no entries, the returned
winner set is empty and no credits are issued.  (The frozen claim asserts
no credits whenever the winning amounts sum to 0; a zero-amount entry on
the winning option falsifies that — a degenerate credit transaction is
still emitted for it, see the counterexample.) -/
theorem C7_forfeited_pool (st : BetState) (key : String)
    (st2 : BetState) (debits credits : List Transaction) (winners : List BetEntry)
    (h : endBet st key = .ok (st2, debits, credits, winners)) :
    debits = st.entries.map (fun e =>
      ⟨e.user, -e.amount, "bet on option " ++ optionNameById st e.optionId⟩) ∧
    credits.length = winners.length ∧
    (winners = [] → credits = []) ∧
    (∃ w, getBetOption st key = some w ∧
      winners = st.entries.filter (fun e => e.optionId == w.id)) := by
  obtain ⟨w, hopt, hres⟩ := endBet_ok_components st key _ h
  simp only [Prod.mk.injEq] at hres
  obtain ⟨h1, h2, h3, h4⟩ := hres
  subst h2 h3 h4
  refine ⟨rfl, by simp, ?_, w, hopt, rfl⟩
  intro hw
  simp [hw]

/-- Witness for C7: ending on option `a` while only bob→b:200 is stored
debits bob's stake and issues no credits; the winner set is empty. -/
theorem C7_forfeited_pool_witness :
    endBet noAEntriesState "a" =
      .ok ({ noAEntriesState with status := "ended" },
           [⟨"bob", -200, "bet on option b"⟩], [], []) ∧
    [(⟨"bob", -200, "bet on option b"⟩ : Transaction)] =
      noAEntriesState.entries.map (fun e =>
        ⟨e.user, -e.amount, "bet on option " ++ optionNameById noAEntriesState e.optionId⟩) ∧
    ([] : List Transaction) = [] := by
  have h := C7_forfeited_pool noAEntriesState "a"
    { noAEntriesState with status := "ended" }
    [⟨"bob", -200, "bet on option b"⟩] [] [] (by decide)
  exact ⟨by decide, h.1, h.2.2.1 rfl⟩

/-- Counterexample to C7 as frozen: with entries alice→a:0 and bob→b:5
the amounts on winning option `a` sum to 0, yet `end("a")` emits a
(degenerate) credit transaction for alice — the credit batch is not
empty. -/
theorem C7_zero_total_still_credits_counterexample :
    endBet zeroWinnerState "a" =
      .ok ({ zeroWinnerState with status := "ended" },
           [⟨"alice", 0, "bet on option a"⟩, ⟨"bob", -5, "bet on option b"⟩],
           [⟨"alice", 0, "bet payout from option a"⟩],
           [⟨1, "alice", 1, 0⟩]) ∧
    winningTotalOf [⟨1, "alice", 1, 0⟩] = 0 ∧
    ([⟨"alice", 0, "bet payout from option a"⟩] : List Transaction) ≠ [] := by
  refine ⟨by decide, by decide, by decide⟩

/-- When the input holds no key token, the regex finds no match at any
position. -/
theorem searchFrom_eq_none_of_no_key (l : List Char) (h : hasKeyToken l = false) :
    searchFrom l = none := by
  induction l with
  | nil => rfl
  | cons c cs ih =>
    unfold hasKeyToken at h
    rw [Bool.or_eq_false_iff] at h
    obtain ⟨h1, h2⟩ := h
    have hk : keyLen? (c :: cs) = none := by
      cases hkk : keyLen? (c :: cs) with
      | none => rfl
      | some r => rw [hkk] at h1; simp at h1
    unfold searchFrom matchAt
    rw [hk]
    simp [ih h2]

/-- C8 (amended): the parser lower-cases matched keys and trims
descriptions; on the well-formed example `"a) Team Red b) Team Blue"` it
returns `{a: "Team Red", b: "Team Blue"}`, and any input containing no
key token — no run of lower-case letters immediately followed by `)` —
yields the empty mapping.  (The frozen claim's universal clause — one
mapping entry per key token of the input — fails: the backward
`lastIndex` adjustment rewinds by the length of the *current* key plus 2
rather than of the following key token, misaligning the scan when
consecutive keys differ in length; see the counterexample.) -/
theorem C8_parse_contract (s : String) (h : containsKeyToken s = false) :
    parse "a) Team Red b) Team Blue" =
      some [("a", "Team Red"), ("b", "Team Blue")] ∧
    parse s = some [] := by
  refine ⟨by decide, ?_⟩
  have hs : searchFrom s.data = none := searchFrom_eq_none_of_no_key s.data h
  show parseLoop s.data (s.data.length + 3) 0 [] = some []
  rw [show s.data.length + 3 = (s.data.length + 2) + 1 from rfl]
  simp only [parseLoop, Int.toNat_zero, List.drop_zero, hs]

/-- Witness for C8 at concrete inputs. -/
theorem C8_parse_contract_witness :
    parse "a) Team Red b) Team Blue" =
      some [("a", "Team Red"), ("b", "Team Blue")] ∧
    parse "the quick brown fox" = some [] :=
  C8_parse_contract "the quick brown fox" (by decide)

/-- Counterexample to C8 as frozen: the input `"a) x bbb) y"` has key
tokens `a` and `bbb`, but the parser returns three entries — `bbb` is
clipped to `bb` and a spurious suffix key `b` appears with the same
description — instead of the claimed per-key-token mapping. -/
theorem C8_key_misparse_counterexample :
    parse "a) x bbb) y" = some [("a", "x"), ("bb", "y"), ("b", "y")] ∧
    parse "a) x bbb) y" ≠ some [("a", "x"), ("bbb", "y")] :=
  ⟨by decide, by decide⟩

/-- The option rows inserted by `createBet` carry exactly the keys and
descriptions of the options map, in order. -/
theorem optionRows_spec :
    ∀ (options : List (String × String)) (i : Nat),
      (optionRows i options).map (fun o => (o.name, o.description)) = options
  | [], _ => rfl
  | (k, v) :: rest, i => by
    simp [optionRows, optionRows_spec rest (i + 1)]

/-- C9 (amended): `create(options)` yields a bet with status `open` and
exactly one `BetOption` row per key of the (duplicate-free, as produced
by the parser) options map, descriptions preserved; the `!bet open`
caller fails with the `ConfigError` message when the ledger (florins
module) is unavailable; but an empty options map is *not* rejected:
neither `createBet` nor the command checks emptiness, and the bet is
created with zero options (see the counterexample). -/
theorem C9_create_bet (options : List (String × String)) (hasBet : Bool)
    (trailing : String) :
    (createBet options).status = "open" ∧
    (createBet options).options.map (fun o => (o.name, o.description)) = options ∧
    (createBet options).options.length = options.length ∧
    betOpenCommand false hasBet trailing =
      some (.error "Bets require the florins module, but it doesn't appear to be available.") := by
  refine ⟨rfl, optionRows_spec options 1, ?_, rfl⟩
  have h := congrArg List.length (optionRows_spec options 1)
  rwa [List.length_map] at h

/-- Witness for C9 at the §8 options map. -/
theorem C9_create_bet_witness :
    (createBet [("a", "Cats"), ("b", "Dogs")]).status = "open" ∧
    (createBet [("a", "Cats"), ("b", "Dogs")]).options.map
      (fun o => (o.name, o.description)) = [("a", "Cats"), ("b", "Dogs")] ∧
    (createBet [("a", "Cats"), ("b", "Dogs")]).options.length =
      ([("a", "Cats"), ("b", "Dogs")] : List (String × String)).length ∧
    betOpenCommand false false "a) Cats b) Dogs" =
      some (.error "Bets require the florins module, but it doesn't appear to be available.") :=
  C9_create_bet [("a", "Cats"), ("b", "Dogs")] false "a) Cats b) Dogs"

/-- Counterexample to C9 as frozen: an empty options map is not rejected
with `ConfigError`: the full `!bet open` path — ledger present, no
running bet, trailing text with no key tokens parsing to the empty map —
succeeds and creates an open bet holding zero `BetOption` rows. -/
theorem C9_empty_options_not_rejected_counterexample :
    betOpenCommand true false "" =
      some (.ok { status := "open", options := [], entries := [], nextEntryId := 1 }) := by
  decide

/-- C10: `end(winningOptionKey)` checks no status precondition: whenever
the named option exists — even on a bet whose status is already `ended` —
the call does not fail, runs to completion, and issues the full debit
batch over all stored entries and the credit batch over the winners
again.  (The `status = "ended"` hypothesis is deliberately unused: that
no hypothesis on the status is needed is the content of the claim.) -/
theorem C10_end_ignores_status (st : BetState) (key : String) (w : BetOption)
    (hopt : getBetOption st key = some w) (_hst : getStatus st = "ended") :
    endBet st key =
      .ok ({ st with status := "ended" },
           st.entries.map (fun e =>
             ⟨e.user, -e.amount, "bet on option " ++ optionNameById st e.optionId⟩),
           ((st.entries.filter (fun e => e.optionId == w.id)).map (fun e =>
             (e.user,
              ceilDivInt (e.amount * pool st)
                (winningTotalOf (st.entries.filter (fun x => x.optionId == w.id)))))).map
             (fun p => ⟨p.1, p.2, "bet payout from option " ++ w.name⟩),
           st.entries.filter (fun e => e.optionId == w.id)) := by
  unfold endBet
  rw [hopt]

/-- Witness for C10: `end("a")` on an already-ended bet debits both
stored stakes again and credits the winner again. -/
theorem C10_end_ignores_status_witness :
    endBet endedState "a" =
      .ok ({ endedState with status := "ended" },
           [⟨"alice", -100, "bet on option a"⟩, ⟨"bob", -200, "bet on option b"⟩],
           [⟨"alice", 300, "bet payout from option a"⟩],
           [⟨1, "alice", 1, 100⟩]) := by
  have h := C10_end_ignores_status endedState "a" ⟨1, "a", "Cats"⟩ rfl rfl
  exact h
